import Mathlib

/-!
Shallow embedding of the Cloudflare Access JWT validator from
`packages/hono-helpers/src/middleware/useCloudflareAccess.ts`.

Strings are Lean `String`s; JavaScript regular expressions are embedded as
executable `Bool`-valued matchers over `String.data`; JSON values decoded
from the token segments and from the certs endpoint are modelled by an
inductive `JVal`; the zod schemas become `Option`-returning parsers over
`JVal`.  Network fetch, base64url+JSON decoding and RSA signature
verification are external effects and enter the model as components of an
environment `Env`; the validator's observable effect sequence is recorded
as a trace of events (`Ev`).
-/

namespace Access

/-! ### Character classes and regex matchers -/

/-- Character class `[a-z0-9_-]` with the `i` flag, i.e. letters of either
case, digits, underscore and hyphen (the `accessJWTRegex` segment class). -/
def isJWTChar (c : Char) : Bool :=
  c.isAlpha || c.isDigit || c == '_' || c == '-'

/-- Character class `[a-z0-9-]` used by the `AccessTeam` and
`AccessTeamDomain` patterns (lowercase only: no `i` flag). -/
def isTeamChar (c : Char) : Bool :=
  (decide ('a' ≤ c) && decide (c ≤ 'z')) || (decide ('0' ≤ c) && decide (c ≤ '9')) || c == '-'

/-- Character class `[a-f0-9]` used by the kid/audience/common-name
patterns (lowercase only: no `i` flag). -/
def isHexChar (c : Char) : Bool :=
  (decide ('a' ≤ c) && decide (c ≤ 'f')) || (decide ('0' ≤ c) && decide (c ≤ '9'))

/-- Case-insensitive hex character, used by the zod uuid format. -/
def isHexCharCI (c : Char) : Bool :=
  isHexChar c || (decide ('A' ≤ c) && decide (c ≤ 'F'))

/-- Deterministic automaton for
`accessJWTRegex = /^[a-z0-9_-]+\.[a-z0-9_-]+\.[a-z0-9_-]+$/i`.
`dots` counts the separators consumed so far and `seg` records whether the
current segment is nonempty; acceptance requires exactly two separators and
a nonempty final segment. -/
def jwtAux : List Char → Nat → Bool → Bool
  | [], dots, seg => dots == 2 && seg
  | c :: rest, dots, seg =>
    if c == '.' then seg && jwtAux rest (dots + 1) false
    else isJWTChar c && jwtAux rest dots true

/-- Matcher for the `AccessJWT` schema: `z.string().regex(accessJWTRegex)`. -/
def accessJWTMatch (s : String) : Bool := jwtAux s.data 0 false

/-- Matcher for the `AccessTeam` schema: `z.string().regex(/^[a-z0-9-]+$/)`. -/
def accessTeamMatch (s : String) : Bool :=
  !s.data.isEmpty && s.data.all isTeamChar

/-- Matcher for `/^[a-f0-9]{64}$/`, shared by the `AccessKid` and
`AccessAudience` schemas. -/
def hex64Match (s : String) : Bool :=
  s.data.length == 64 && s.data.all isHexChar

/-- Matcher for the `AccessTeamDomain` schema:
`/^https:\/\/[a-z0-9-]+\.cloudflareaccess\.com$/`.  The `[a-z0-9-]+` run is
taken greedily, which is equivalent to the regex because `.` is not in the
class. -/
def accessTeamDomainMatch (s : String) : Bool :=
  let pre := "https://".data
  if pre.isPrefixOf s.data then
    let rest := s.data.drop pre.length
    !(rest.takeWhile isTeamChar).isEmpty &&
      rest.dropWhile isTeamChar == ".cloudflareaccess.com".data
  else false

/-- Matcher for the service-auth `common_name` pattern
`/^[a-f0-9]{32}\.access$/`. -/
def commonNameMatch (s : String) : Bool :=
  (s.data.take 32).length == 32 && (s.data.take 32).all isHexChar &&
    s.data.drop 32 == ".access".data

/-- JavaScript `String.prototype.split('-')` on the character list. -/
def splitOnHyphen : List Char → List (List Char)
  | [] => [[]]
  | c :: rest =>
    if c == '-' then [] :: splitOnHyphen rest
    else
      match splitOnHyphen rest with
      | [] => [[c]]
      | h :: t => (c :: h) :: t

/-- Matcher for the zod uuid string format used by `z.string().uuid()`:
hyphen-separated hex groups of lengths 8-4-4-4-12 (case-insensitive). -/
def uuidMatch (s : String) : Bool :=
  let parts := splitOnHyphen s.data
  parts.map (fun p => p.length) == [8, 4, 4, 4, 12] &&
    parts.all (fun p => p.all isHexCharCI)

/-! ### JSON values and zod schema parsers -/

/-- JSON values as decoded by `JSON.parse` / `Response.json()`.  Numeric
claims (`exp`, `iat`, `nbf`) are integers in Access tokens, so JSON numbers
are modelled by `Int`. -/
inductive JVal where
  | null : JVal
  | bool : Bool → JVal
  | num : Int → JVal
  | str : String → JVal
  | arr : List JVal → JVal
  | obj : List (String × JVal) → JVal

/-- First-match field lookup in a JSON object. -/
def lookupField : List (String × JVal) → String → Option JVal
  | [], _ => none
  | (k, v) :: rest, key => if k == key then some v else lookupField rest key

/-- Field access that succeeds only on a string value (zod `z.string()`
type check). -/
def getStrField (fs : List (String × JVal)) (k : String) : Option String :=
  match lookupField fs k with
  | some (.str s) => some s
  | _ => none

/-- Field access that succeeds only on a numeric value (zod `z.number()`
type check). -/
def getNumField (fs : List (String × JVal)) (k : String) : Option Int :=
  match lookupField fs k with
  | some (.num n) => some n
  | _ => none

/-- Field access that succeeds only on an array value (zod `z.array`
type check). -/
def getArrField (fs : List (String × JVal)) (k : String) : Option (List JVal) :=
  match lookupField fs k with
  | some (.arr xs) => some xs
  | _ => none

/-- Substring containment test (JavaScript `String.prototype.includes`). -/
def infixOf (needle : List Char) : List Char → Bool
  | [] => needle.isEmpty
  | c :: rest => needle.isPrefixOf (c :: rest) || infixOf needle rest

/-- Elementwise parse of a JSON array, failing when any element fails
(zod `z.array(schema)` semantics). -/
def mapMOpt {α β : Type} (f : α → Option β) : List α → Option (List β)
  | [] => some []
  | x :: xs =>
    match f x, mapMOpt f xs with
    | some y, some ys => some (y :: ys)
    | _, _ => none

/-- Result of `AccessHeader.parse`: the only field consumed downstream is
`kid`; `alg` and the optional `typ` are validated by the parse. -/
structure AccessHeaderT where
  kid : String
deriving DecidableEq, Repr

/-- Parser for the `AccessHeader` zod schema:
`{ kid: AccessKid, alg: z.literal('RS256'), typ: z.literal('JWT').optional() }`. -/
def parseAccessHeader (j : JVal) : Option AccessHeaderT :=
  match j with
  | .obj fs =>
    match getStrField fs "kid", getStrField fs "alg" with
    | some kid, some alg =>
      let typValid :=
        match lookupField fs "typ" with
        | none => true
        | some (.str t) => t == "JWT"
        | some _ => false
      if hex64Match kid && (alg == "RS256") && typValid then some ⟨kid⟩ else none
    | _, _ => none
  | _ => none

/-- Result of `AccessKey.parse`: a JWK signing key. -/
structure AccessKeyT where
  kid : String
  use : String
  e : String
  n : String
deriving DecidableEq, Repr

/-- Parser for the `AccessKey` zod schema: `kid` hex64, `kty` literally
`RSA`, `alg` literally `RS256`, and nonempty `use`/`e`/`n`. -/
def parseAccessKey (j : JVal) : Option AccessKeyT :=
  match j with
  | .obj fs => do
    let kid ← getStrField fs "kid"
    let kty ← getStrField fs "kty"
    let alg ← getStrField fs "alg"
    let use ← getStrField fs "use"
    let e ← getStrField fs "e"
    let n ← getStrField fs "n"
    if hex64Match kid && (kty == "RSA") && (alg == "RS256") &&
        !use.isEmpty && !e.isEmpty && !n.isEmpty then
      some ⟨kid, use, e, n⟩
    else none
  | _ => none

/-- Result of `PublicCERT.parse`. -/
structure PublicCertT where
  kid : String
  cert : String
deriving DecidableEq, Repr

/-- Parser for the `PublicCERT` zod schema: `kid` hex64 and a nonempty
`cert` containing both PEM markers. -/
def parsePublicCert (j : JVal) : Option PublicCertT :=
  match j with
  | .obj fs => do
    let kid ← getStrField fs "kid"
    let cert ← getStrField fs "cert"
    if hex64Match kid && !cert.isEmpty &&
        infixOf "-----BEGIN CERTIFICATE-----".data cert.data &&
        infixOf "-----END CERTIFICATE-----".data cert.data then
      some ⟨kid, cert⟩
    else none
  | _ => none

/-- Result of `AccessCertsResponse.parse`. -/
structure AccessCertsT where
  keys : List AccessKeyT
  public_cert : PublicCertT
  public_certs : List PublicCertT
deriving DecidableEq, Repr

/-- Parser for the `AccessCertsResponse` zod schema:
`keys: z.array(AccessKey).min(1)`, `public_cert: PublicCERT`,
`public_certs: z.array(PublicCERT).min(1)`. -/
def parseAccessCertsResponse (j : JVal) : Option AccessCertsT :=
  match j with
  | .obj fs =>
    match getArrField fs "keys" with
    | none => none
    | some keysJ =>
      match mapMOpt parseAccessKey keysJ with
      | none => none
      | some keys =>
        match lookupField fs "public_cert" with
        | none => none
        | some pcJ =>
          match parsePublicCert pcJ with
          | none => none
          | some pc =>
            match getArrField fs "public_certs" with
            | none => none
            | some pcsJ =>
              match mapMOpt parsePublicCert pcsJ with
              | none => none
              | some pcs =>
                if !keys.isEmpty && !pcs.isEmpty then some ⟨keys, pc, pcs⟩ else none
  | _ => none

/-- Result of `UserAccessPayload.parse`. -/
structure UserPayloadT where
  type : String
  exp : Int
  iat : Int
  iss : String
  aud : List String
  nbf : Int
  email : String
  identity_nonce : String
  sub : String
  country : String
deriving DecidableEq, Repr

/-- Result of `ServiceAuthAccessPayload.parse`.  The schema pins
`identity_nonce` to `z.undefined()`, so the parsed value has no such
field. -/
structure ServicePayloadT where
  type : String
  exp : Int
  iat : Int
  iss : String
  aud : String
  common_name : String
  sub : String
deriving DecidableEq, Repr

/-- Shared check for `AccessPayloadCommon`: `type` in `{app, org}` and
`exp`/`iat` at least 1 and `iss` matching the team-domain pattern. -/
def commonPayloadOk (ty : String) (exp iat : Int) (iss : String) : Bool :=
  (ty == "app" || ty == "org") && decide (1 ≤ exp) && decide (1 ≤ iat) &&
    accessTeamDomainMatch iss

/-- Parser for the `UserAccessPayload` zod schema. -/
def parseUserPayload (j : JVal) : Option UserPayloadT :=
  match j with
  | .obj fs => do
    let ty ← getStrField fs "type"
    let exp ← getNumField fs "exp"
    let iat ← getNumField fs "iat"
    let iss ← getStrField fs "iss"
    let audJ ← getArrField fs "aud"
    let aud ← mapMOpt (fun v =>
      match v with
      | .str s => if hex64Match s then some s else none
      | _ => none) audJ
    let nbf ← getNumField fs "nbf"
    let email ← getStrField fs "email"
    let nonce ← getStrField fs "identity_nonce"
    let sub ← getStrField fs "sub"
    let country ← getStrField fs "country"
    if commonPayloadOk ty exp iat iss && decide (1 ≤ nbf) &&
        !email.isEmpty && email.data.contains '@' && !nonce.isEmpty &&
        uuidMatch sub && (country.length == 2) then
      some ⟨ty, exp, iat, iss, aud, nbf, email, nonce, sub, country⟩
    else none
  | _ => none

/-- Parser for the `ServiceAuthAccessPayload` zod schema.  A present
`identity_nonce` field (of any JSON value) fails `z.undefined()`. -/
def parseServicePayload (j : JVal) : Option ServicePayloadT :=
  match j with
  | .obj fs => do
    let ty ← getStrField fs "type"
    let exp ← getNumField fs "exp"
    let iat ← getNumField fs "iat"
    let iss ← getStrField fs "iss"
    let aud ← getStrField fs "aud"
    let cn ← getStrField fs "common_name"
    let sub ← getStrField fs "sub"
    match lookupField fs "identity_nonce" with
    | some _ => none
    | none =>
      if commonPayloadOk ty exp iat iss && hex64Match aud &&
          commonNameMatch cn && (sub == "") then
        some ⟨ty, exp, iat, iss, aud, cn, sub⟩
      else none
  | _ => none

/-- Validated payload: `AccessPayload = z.union([UserAccessPayload,
ServiceAuthAccessPayload])`. -/
inductive AccessPayloadT where
  | user : UserPayloadT → AccessPayloadT
  | service : ServicePayloadT → AccessPayloadT
deriving DecidableEq, Repr

/-- Parser for the `AccessPayload` union: zod tries the user shape first,
then the service-auth shape. -/
def parseAccessPayload (j : JVal) : Option AccessPayloadT :=
  match parseUserPayload j with
  | some u => some (.user u)
  | none =>
    match parseServicePayload j with
    | some s => some (.service s)
    | none => none

/-- Issuer claim of a validated payload. -/
def AccessPayloadT.iss : AccessPayloadT → String
  | .user u => u.iss
  | .service s => s.iss

/-- Expiry claim of a validated payload. -/
def AccessPayloadT.exp : AccessPayloadT → Int
  | .user u => u.exp
  | .service s => s.exp

/-- `includesAud` from the source: for a string `aud` (service auth)
strict equality, for an array `aud` (user payload) membership via
`Array.prototype.includes`. -/
def includesAud (payload : AccessPayloadT) (aud : String) : Bool :=
  match payload with
  | .service s => s.aud == aud
  | .user u => u.aud.contains aud

/-! ### Requests, configuration and the external environment -/

/-- The part of an inbound request the validator reads: the
`Cf-Access-Jwt-Assertion` header (`none` when the header is absent, which
`Headers.get` reports as `null`). -/
structure Req where
  cfAccessJwtAssertion : Option String

/-- Validator configuration produced at construction time:
`accessTeamDomain` and `accessAud` after their zod parses. -/
structure Config where
  teamDomain : String
  aud : String
deriving DecidableEq, Repr

/-- The external world a validation run interacts with.  `nowMs` is
`Date.now()` in integer milliseconds; `decode` is the composition
`JSON.parse ∘ TextDecoder.decode ∘ base64URLDecode` applied to a token
segment (`none` when any of those throws); `certsBody` is the JSON body
obtained from `fetch(certsURL)` followed by `.json()` (`none` when the
fetch or body parse throws); `verify` is `crypto.subtle.verify` on the
imported JWK, the decoded signature segment and the ASCII message bytes. -/
structure Env where
  nowMs : Nat
  decode : String → Option JVal
  certsBody : Option JVal
  verify : AccessKeyT → String → String → Bool

/-- `Math.floor(Date.now() / 1000)`, exact on integer milliseconds. -/
def floorSec (env : Env) : Int := Int.ofNat (env.nowMs / 1000)

/-- `Math.ceil(Date.now() / 1000)`, exact on integer milliseconds. -/
def ceilSec (env : Env) : Int := Int.ofNat ((env.nowMs + 999) / 1000)

/-- Observable events of a validation run: the certs endpoint fetch, the
evaluation of the not-before comparison (right operand of the
short-circuit `&&` on `identity_nonce`), and the call to
`crypto.subtle.verify`. -/
inductive Ev where
  | fetchCerts : Ev
  | nbfCompare : Ev
  | subtleVerify : Ev
deriving DecidableEq, Repr

/-! ### The validation pipeline -/

/-- `extractJWTFromRequest`: `AccessJWT.parse(req.headers.get('Cf-Access-Jwt-Assertion'))`.
A missing header is `null` and fails the `z.string()` type check; a present
header must match `accessJWTRegex`. -/
def extractJWTFromRequest (req : Req) : Except String String :=
  match req.cfAccessJwtAssertion with
  | none => .error "expected string, received null"
  | some s => if accessJWTMatch s then .ok s else .error "invalid jwt"

/-- `hasValidJWT`: `extractJWTFromRequest` wrapped in try/catch. -/
def hasValidJWT (req : Req) : Bool :=
  match extractJWTFromRequest req with
  | .ok _ => true
  | .error _ => false

/-- JavaScript `String.prototype.split('.')` on the character list. -/
def splitOnDot : List Char → List (List Char)
  | [] => [[]]
  | c :: rest =>
    if c == '.' then [] :: splitOnDot rest
    else
      match splitOnDot rest with
      | [] => [[c]]
      | h :: t => (c :: h) :: t

/-- The three-parts check: `jwt.split('.')` must have length 3, else
`throw new Error('JWT does not have three parts.')`, then the parts are
destructured into header, payload and signature. -/
def stageSplit (jwt : String) : Except String (String × String × String) :=
  match splitOnDot jwt.data with
  | [h, p, s] => .ok (String.mk h, String.mk p, String.mk s)
  | _ => .error "JWT does not have three parts."

/-- Header decode and `AccessHeader.parse`. -/
def stageHeader (env : Env) (hdr : String) : Except String AccessHeaderT :=
  match env.decode hdr with
  | none => .error "could not decode JWT header"
  | some j =>
    match parseAccessHeader j with
    | none => .error "invalid JWT header"
    | some h => .ok h

/-- Origin of `new URL('/cdn-cgi/access/certs', accessTeamDomain)`.  For a
base matching the `AccessTeamDomain` pattern (https scheme, host only, no
port, no path) resolving a path-absolute reference leaves the origin equal
to the base itself. -/
def certsURLOrigin (teamDomain : String) : String := teamDomain

/-- Certs fetch body handling and `AccessCertsResponse.parse`. -/
def stageCerts (env : Env) : Except String AccessCertsT :=
  match env.certsBody with
  | none => .error "failed to fetch certs"
  | some j =>
    match parseAccessCertsResponse j with
    | none => .error "Could not fetch signing keys."
    | some c => .ok c

/-- `keys.find((key) => key.kid === kid)` and the missing-key throw. -/
def stageKey (certs : AccessCertsT) (kid : String) : Except String AccessKeyT :=
  match certs.keys.find? (fun k => k.kid == kid) with
  | none => .error "Could not find matching signing key."
  | some k => .ok k

/-- Payload decode and `AccessPayload.parse`. -/
def stagePayload (env : Env) (pay : String) : Except String AccessPayloadT :=
  match env.decode pay with
  | none => .error "could not decode JWT payload"
  | some j =>
    match parseAccessPayload j with
    | none => .error "invalid JWT payload"
    | some p => .ok p

/-- The four claim checks, in source order: issuer, audience, expiry,
not-before.  The not-before comparison is guarded by the truthiness of
`payloadObj.identity_nonce` (undefined on service-auth payloads, a
nonempty string on user payloads); the emitted `Ev.nbfCompare` marks the
runs on which that comparison is actually evaluated. -/
def stageChecks (cfg : Config) (fl ce : Int) (p : AccessPayloadT) :
    Except String Unit × List Ev :=
  if p.iss ≠ certsURLOrigin cfg.teamDomain then (.error "JWT issuer is incorrect.", [])
  else if !includesAud p cfg.aud then (.error "JWT audience is incorrect.", [])
  else if p.exp ≤ fl then (.error "JWT has expired.", [])
  else
    match p with
    | .user u =>
      if u.identity_nonce ≠ "" then
        if ce < u.nbf then (.error "JWT is not yet valid.", [.nbfCompare])
        else (.ok (), [.nbfCompare])
      else (.ok (), [])
    | .service _ => (.ok (), [])

/-- `crypto.subtle.verify` outcome handling. -/
def stageVerify (env : Env) (jwk : AccessKeyT) (sig msg : String) : Except String Unit :=
  if env.verify jwk sig msg then .ok () else .error "Could not verify JWT."

/-- `validateAccessJWT`: the full pipeline, returning the validated payload
or the first error, together with the trace of observable events. -/
def validateAccessJWT (cfg : Config) (env : Env) (req : Req) :
    Except String AccessPayloadT × List Ev :=
  match extractJWTFromRequest req with
  | .error e => (.error e, [])
  | .ok jwt =>
    match stageSplit jwt with
    | .error e => (.error e, [])
    | .ok (hdr, pay, sig) =>
      match stageHeader env hdr with
      | .error e => (.error e, [])
      | .ok header =>
        match stageCerts env with
        | .error e => (.error e, [.fetchCerts])
        | .ok certs =>
          match stageKey certs header.kid with
          | .error e => (.error e, [.fetchCerts])
          | .ok jwk =>
            match stagePayload env pay with
            | .error e => (.error e, [.fetchCerts])
            | .ok payload =>
              match stageChecks cfg (floorSec env) (ceilSec env) payload with
              | (.error e, tr) => (.error e, .fetchCerts :: tr)
              | (.ok _, tr) =>
                match stageVerify env jwk sig (hdr ++ "." ++ pay) with
                | .error e => (.error e, .fetchCerts :: tr ++ [.subtleVerify])
                | .ok _ => (.ok payload, .fetchCerts :: tr ++ [.subtleVerify])

/-! ### The middleware -/

/-- Modelled from the spec: `newHTTPException` lives in
`packages/hono-helpers/src/helpers/errors.ts`, which is not among the
provided sources; per the spec every failure path raises a single generic
status-coded rejection to the HTTP caller, so the exception is modelled as
the pair of its status code and message. -/
def newHTTPException (status : Nat) (msg : String) : Nat × String := (status, msg)

/-- `useCloudflareAccess` construction: `AccessTeam.parse(team)`, then
`AccessTeamDomain.parse` of the interpolated domain, then
`AccessAudience.parse(audience)`; any failure throws before a middleware
function is returned. -/
def useCloudflareAccess (team audience : String) : Except String Config :=
  if accessTeamMatch team then
    if accessTeamDomainMatch ("https://" ++ team ++ ".cloudflareaccess.com") then
      if hex64Match audience then
        .ok ⟨"https://" ++ team ++ ".cloudflareaccess.com", audience⟩
      else .error "invalid audience"
    else .error "invalid team domain"
  else .error "invalid team"

/-- Whether validator construction succeeded. -/
def constructionOk (team audience : String) : Bool :=
  match useCloudflareAccess team audience with
  | .ok _ => true
  | .error _ => false

/-- One middleware invocation: a request without a valid-looking token or
with a failing `validateAccessJWT` run throws
`newHTTPException(401, 'unauthorized')`; otherwise `next()` runs
(`Except.ok ()`). -/
def middlewareRun (cfg : Config) (env : Env) (req : Req) : Except (Nat × String) Unit :=
  if hasValidJWT req = false then .error (newHTTPException 401 "unauthorized")
  else
    match (validateAccessJWT cfg env req).1 with
    | .error _ => .error (newHTTPException 401 "unauthorized")
    | .ok _ => .ok ()

/-- Events emitted while handling one request: `validateAccessJWT` runs
only after the `hasValidJWT` short-circuit. -/
def middlewareTrace (cfg : Config) (env : Env) (req : Req) : List Ev :=
  if hasValidJWT req then (validateAccessJWT cfg env req).2 else []

/-- The payload the pipeline decodes and parses for a request, independent
of the later claim checks and signature verification. -/
def payloadOfRun (env : Env) (req : Req) : Option AccessPayloadT :=
  match extractJWTFromRequest req with
  | .error _ => none
  | .ok jwt =>
    match stageSplit jwt with
    | .error _ => none
    | .ok (_, pay, _) =>
      match stagePayload env pay with
      | .error _ => none
      | .ok p => some p

/-- A run whose externally relevant outcome is failure: either the
`hasValidJWT` guard rejects or `validateAccessJWT` throws. -/
def tokenValidationFails (cfg : Config) (env : Env) (req : Req) : Prop :=
  hasValidJWT req = false ∨ ∃ e, (validateAccessJWT cfg env req).1 = .error e

/-- Whether an `Except` result is an error. -/
def isErr {α : Type} (r : Except String α) : Bool :=
  match r with
  | .error _ => true
  | .ok _ => false

/-- Decidable equality of `Except` results, for evaluating the pipeline on
concrete inputs. -/
instance instDecEqExcept {ε α : Type} [DecidableEq ε] [DecidableEq α] :
    DecidableEq (Except ε α)
  | .error a, .error b => decidable_of_iff (a = b) (by simp)
  | .error _, .ok _ => isFalse (fun h => Except.noConfusion h)
  | .ok _, .error _ => isFalse (fun h => Except.noConfusion h)
  | .ok a, .ok b => decidable_of_iff (a = b) (by simp)

/-! ### Concrete example data

A worked Access team with one signing key, one service-auth token and one
user token, used to evaluate the pipeline on explicit inputs. -/

/-- Example audience tag: 64 hex characters. -/
def audW : String := String.mk (List.replicate 64 'a')

/-- Example key id present in the example certs response. -/
def kidW : String := String.mk (List.replicate 64 'a')

/-- A key id absent from the example certs response. -/
def kidB : String := String.mk (List.replicate 64 'b')

/-- Example team domain for team `myteam`. -/
def domW : String := "https://myteam.cloudflareaccess.com"

/-- Example parsed configuration for team `myteam`. -/
def cfgW : Config := ⟨domW, audW⟩

/-- Example decoded JWT header JSON naming key `kidW`. -/
def headerJ : JVal := .obj [("kid", .str kidW), ("alg", .str "RS256")]

/-- Example decoded JWT header JSON naming the absent key `kidB`. -/
def headerB : JVal := .obj [("kid", .str kidB), ("alg", .str "RS256")]

/-- Example JWK entry of the certs response. -/
def keyJ : JVal := .obj [("kid", .str kidW), ("kty", .str "RSA"), ("alg", .str "RS256"),
  ("use", .str "sig"), ("e", .str "AQAB"), ("n", .str "modulus")]

/-- Example public certificate entry of the certs response. -/
def certJ : JVal := .obj [("kid", .str kidW),
  ("cert", .str "-----BEGIN CERTIFICATE-----x-----END CERTIFICATE-----")]

/-- Example certs response body. -/
def certsJ : JVal :=
  .obj [("keys", .arr [keyJ]), ("public_cert", certJ), ("public_certs", .arr [certJ])]

/-- Parsed form of `keyJ`. -/
def keyW : AccessKeyT := ⟨kidW, "sig", "AQAB", "modulus"⟩

/-- Parsed form of `certJ`. -/
def certW : PublicCertT := ⟨kidW, "-----BEGIN CERTIFICATE-----x-----END CERTIFICATE-----"⟩

/-- Parsed form of `certsJ`. -/
def certsW : AccessCertsT := ⟨[keyW], certW, [certW]⟩

/-- Example service-auth common name. -/
def cnW : String := String.mk (List.replicate 32 'a') ++ ".access"

/-- Example decoded service-auth payload JSON. -/
def spJ : JVal := .obj [("type", .str "app"), ("exp", .num 2000000000), ("iat", .num 1),
  ("iss", .str domW), ("aud", .str audW), ("common_name", .str cnW), ("sub", .str "")]

/-- Parsed form of `spJ`. -/
def spW : ServicePayloadT := ⟨"app", 2000000000, 1, domW, audW, cnW, ""⟩

/-- Service-auth payload expiring exactly at the example floored clock. -/
def spE : ServicePayloadT := ⟨"app", 1000000000, 1, domW, audW, cnW, ""⟩

/-- Example decoded user payload JSON; its `aud` array carries a second,
unrelated audience tag. -/
def upJ : JVal := .obj [("type", .str "app"), ("exp", .num 2000000000), ("iat", .num 1),
  ("iss", .str domW), ("aud", .arr [.str audW, .str kidB]), ("nbf", .num 1),
  ("email", .str "x@y.z"), ("identity_nonce", .str "nonce"),
  ("sub", .str "123e4567-e89b-12d3-a456-426614174000"), ("country", .str "US")]

/-- Parsed form of `upJ`. -/
def upW : UserPayloadT := ⟨"app", 2000000000, 1, domW, [audW, kidB], 1, "x@y.z", "nonce",
  "123e4567-e89b-12d3-a456-426614174000", "US"⟩

/-- Example environment: clock at `10^12` ms, both token segments decode,
certs fetch returns `certsJ`, signatures verify. -/
def envW : Env where
  nowMs := 1000000000000
  decode := fun s => if s = "h" then some headerJ else if s = "p" then some spJ else none
  certsBody := some certsJ
  verify := fun _ _ _ => true

/-- Environment whose token header names the absent key `kidB`. -/
def envKid : Env where
  nowMs := 1000000000000
  decode := fun s => if s = "h" then some headerB else if s = "p" then some spJ else none
  certsBody := some certsJ
  verify := fun _ _ _ => true

/-- Environment whose token payload is the user payload `upJ`. -/
def envU : Env where
  nowMs := 1000000000000
  decode := fun s => if s = "h" then some headerJ else if s = "p" then some upJ else none
  certsBody := some certsJ
  verify := fun _ _ _ => true

/-- Degenerate environment: nothing decodes, no certs, nothing verifies. -/
def envBad : Env where
  nowMs := 0
  decode := fun _ => none
  certsBody := none
  verify := fun _ _ _ => false

/-- Example request carrying the well-formed compact token `h.p.s`. -/
def reqW : Req := ⟨some "h.p.s"⟩

/-- Request without the `Cf-Access-Jwt-Assertion` header. -/
def reqNone : Req := ⟨none⟩

/-! ### Auxiliary lemmas about the regex automaton and `split` -/

/-- Number of `.` separators in a character list (proof-side auxiliary). -/
def countDots : List Char → Nat
  | [] => 0
  | c :: rest => (if c == '.' then 1 else 0) + countDots rest

theorem splitOnDot_length (s : List Char) : (splitOnDot s).length = countDots s + 1 := by
  induction s with
  | nil => rfl
  | cons c rest ih =>
    by_cases h : c == '.'
    · simp only [splitOnDot, countDots, h, if_true, List.length_cons]
      omega
    · simp only [splitOnDot, countDots, h, if_false]
      cases hs : splitOnDot rest with
      | nil => rw [hs] at ih; simp at ih
      | cons h0 t0 =>
        rw [hs] at ih
        simpa using ih

theorem jwtAux_count (s : List Char) : ∀ d seg, jwtAux s d seg = true → countDots s + d = 2 := by
  induction s with
  | nil =>
    intro d seg h
    simp only [jwtAux, Bool.and_eq_true, beq_iff_eq] at h
    simp [countDots, h.1]
  | cons c rest ih =>
    intro d seg h
    simp only [jwtAux] at h
    by_cases hc : c == '.'
    · rw [if_pos hc] at h
      rw [Bool.and_eq_true] at h
      have := ih (d + 1) false h.2
      simp [countDots, hc]
      omega
    · rw [if_neg hc] at h
      rw [Bool.and_eq_true] at h
      have := ih d true h.2
      simp [countDots, hc]
      omega

theorem accessJWTMatch_split {s : String} (h : accessJWTMatch s = true) :
    (splitOnDot s.data).length = 3 := by
  have := jwtAux_count s.data 0 false h
  rw [splitOnDot_length]
  omega

theorem jwtAux_parts (s : List Char) : ∀ d seg, jwtAux s d seg = true →
    (∀ p ∈ (splitOnDot s).tail, p ≠ []) ∧
      (seg = false → ∀ p ∈ splitOnDot s, p ≠ []) := by
  induction s with
  | nil =>
    intro d seg h
    simp only [jwtAux, Bool.and_eq_true, beq_iff_eq] at h
    refine ⟨by simp [splitOnDot], ?_⟩
    intro hseg
    rw [hseg] at h
    exact absurd h.2 (by simp)
  | cons c rest ih =>
    intro d seg h
    simp only [jwtAux] at h
    by_cases hc : c == '.'
    · rw [if_pos hc] at h
      rw [Bool.and_eq_true] at h
      obtain ⟨hseg, h2⟩ := h
      have hrest := ih (d + 1) false h2
      have hall := hrest.2 rfl
      constructor
      · simp only [splitOnDot, hc, if_true, List.tail_cons]
        exact hall
      · intro hfalse
        rw [hfalse] at hseg
        exact absurd hseg (by simp)
    · rw [if_neg hc] at h
      rw [Bool.and_eq_true] at h
      obtain ⟨-, h2⟩ := h
      have hrest := ih d true h2
      cases hs : splitOnDot rest with
      | nil =>
        have := splitOnDot_length rest
        rw [hs] at this
        simp at this
      | cons h0 t0 =>
        have htail : ∀ p ∈ t0, p ≠ [] := by
          intro p hp
          exact hrest.1 p (by rw [hs]; exact hp)
        constructor
        · simp only [splitOnDot, hc, if_false, hs, List.tail_cons]
          exact htail
        · intro _
          simp only [splitOnDot, hc, if_false, hs]
          intro p hp
          rcases List.mem_cons.mp hp with h1 | h1
          · rw [h1]; simp
          · exact htail p h1

/-! ### Auxiliary lemmas about the claim checks and the pipeline -/

theorem stageChecks_service_eq (cfg : Config) (fl ce : Int) (s : ServicePayloadT) :
    stageChecks cfg fl ce (.service s) =
      (if s.iss ≠ certsURLOrigin cfg.teamDomain then (.error "JWT issuer is incorrect.", [])
       else if !includesAud (.service s) cfg.aud then (.error "JWT audience is incorrect.", [])
       else if s.exp ≤ fl then (.error "JWT has expired.", [])
       else (.ok (), [])) := rfl

theorem stageChecks_user_eq (cfg : Config) (fl ce : Int) (u : UserPayloadT) :
    stageChecks cfg fl ce (.user u) =
      (if u.iss ≠ certsURLOrigin cfg.teamDomain then (.error "JWT issuer is incorrect.", [])
       else if !includesAud (.user u) cfg.aud then (.error "JWT audience is incorrect.", [])
       else if u.exp ≤ fl then (.error "JWT has expired.", [])
       else if u.identity_nonce ≠ "" then
         (if ce < u.nbf then (.error "JWT is not yet valid.", [.nbfCompare])
          else (.ok (), [.nbfCompare]))
       else (.ok (), [])) := rfl

theorem stageChecks_ok_iss {cfg : Config} {fl ce : Int} {p : AccessPayloadT}
    (h : (stageChecks cfg fl ce p).1 = .ok ()) :
    p.iss = certsURLOrigin cfg.teamDomain := by
  unfold stageChecks at h
  split at h
  · simp at h
  · next hne => exact not_not.mp hne

theorem stageChecks_ok_aud {cfg : Config} {fl ce : Int} {p : AccessPayloadT}
    (h : (stageChecks cfg fl ce p).1 = .ok ()) :
    includesAud p cfg.aud = true := by
  unfold stageChecks at h
  split at h
  · simp at h
  · split at h
    · simp at h
    · next hne => simpa using hne

theorem stageChecks_ok_exp {cfg : Config} {fl ce : Int} {p : AccessPayloadT}
    (h : (stageChecks cfg fl ce p).1 = .ok ()) :
    fl < p.exp := by
  unfold stageChecks at h
  split at h
  · simp at h
  · split at h
    · simp at h
    · split at h
      · simp at h
      · next hne => omega

theorem stageChecks_trace (cfg : Config) (fl ce : Int) (p : AccessPayloadT) :
    (stageChecks cfg fl ce p).2 = [] ∨ (stageChecks cfg fl ce p).2 = [.nbfCompare] := by
  unfold stageChecks
  split
  · exact Or.inl rfl
  · split
    · exact Or.inl rfl
    · split
      · exact Or.inl rfl
      · split
        · split
          · split
            · exact Or.inr rfl
            · exact Or.inr rfl
          · exact Or.inl rfl
        · exact Or.inl rfl

theorem validate_ok_elim {cfg : Config} {env : Env} {req : Req} {p : AccessPayloadT}
    {tr : List Ev} (h : validateAccessJWT cfg env req = (.ok p, tr)) :
    ∃ jwt hdr pay sig header certs jwk trc,
      extractJWTFromRequest req = .ok jwt ∧
      stageSplit jwt = .ok (hdr, pay, sig) ∧
      stageHeader env hdr = .ok header ∧
      stageCerts env = .ok certs ∧
      stageKey certs header.kid = .ok jwk ∧
      stagePayload env pay = .ok p ∧
      stageChecks cfg (floorSec env) (ceilSec env) p = (.ok (), trc) ∧
      env.verify jwk sig (hdr ++ "." ++ pay) = true ∧
      tr = .fetchCerts :: trc ++ [.subtleVerify] := by
  unfold validateAccessJWT at h
  split at h
  · simp at h
  · next jwt h1 =>
    split at h
    · simp at h
    · next hdr pay sig h2 =>
      split at h
      · simp at h
      · next header h3 =>
        split at h
        · simp at h
        · next certs h4 =>
          split at h
          · simp at h
          · next jwk h5 =>
            split at h
            · simp at h
            · next payload h6 =>
              split at h
              · simp at h
              · next val trc h7 =>
                split at h
                · simp at h
                · next val2 h8 =>
                  cases val
                  cases val2
                  have hp' : p = payload := by
                    have := congrArg Prod.fst h
                    simpa using this.symm
                  subst hp'
                  have htr' : tr = .fetchCerts :: trc ++ [.subtleVerify] := by
                    have := congrArg Prod.snd h
                    simpa using this.symm
                  have h8' : env.verify jwk sig (hdr ++ "." ++ pay) = true := by
                    unfold stageVerify at h8
                    split at h8
                    · assumption
                    · simp at h8
                  exact ⟨jwt, hdr, pay, sig, header, certs, jwk, trc,
                    h1, h2, h3, h4, h5, h6, h7, h8', htr'⟩

theorem validate_ok_intro {cfg : Config} {env : Env} {req : Req} {p : AccessPayloadT}
    {jwt hdr pay sig : String} {header : AccessHeaderT} {certs : AccessCertsT}
    {jwk : AccessKeyT} {trc : List Ev}
    (h1 : extractJWTFromRequest req = .ok jwt)
    (h2 : stageSplit jwt = .ok (hdr, pay, sig))
    (h3 : stageHeader env hdr = .ok header)
    (h4 : stageCerts env = .ok certs)
    (h5 : stageKey certs header.kid = .ok jwk)
    (h6 : stagePayload env pay = .ok p)
    (h7 : stageChecks cfg (floorSec env) (ceilSec env) p = (.ok (), trc))
    (h8 : env.verify jwk sig (hdr ++ "." ++ pay) = true) :
    validateAccessJWT cfg env req = (.ok p, .fetchCerts :: trc ++ [.subtleVerify]) := by
  unfold validateAccessJWT
  simp only [h1, h2, h3, h4, h5, h6, h7, stageVerify, h8, if_true]

theorem mw_fail {cfg : Config} {env : Env} {req : Req}
    (h : tokenValidationFails cfg env req) :
    middlewareRun cfg env req = .error (401, "unauthorized") := by
  unfold middlewareRun
  rcases h with h | ⟨e, h⟩
  · simp [h, newHTTPException]
  · by_cases hv : hasValidJWT req = false
    · simp [hv, newHTTPException]
    · have hv' : hasValidJWT req = true := by revert hv; cases hasValidJWT req <;> simp
      simp [hv', h, newHTTPException]

theorem payloadOfRun_eq {env : Env} {req : Req} {jwt hdr pay sig : String}
    {p : AccessPayloadT}
    (h1 : extractJWTFromRequest req = .ok jwt)
    (h2 : stageSplit jwt = .ok (hdr, pay, sig))
    (h6 : stagePayload env pay = .ok p) :
    payloadOfRun env req = some p := by
  unfold payloadOfRun
  simp only [h1, h2, h6]

theorem verify_mem_elim {cfg : Config} {env : Env} {req : Req}
    (h : Ev.subtleVerify ∈ (validateAccessJWT cfg env req).2) :
    ∃ p trc, payloadOfRun env req = some p ∧
      stageChecks cfg (floorSec env) (ceilSec env) p = (.ok (), trc) := by
  unfold validateAccessJWT at h
  split at h
  · simp at h
  · next jwt h1 =>
    split at h
    · simp at h
    · next hdr pay sig h2 =>
      split at h
      · simp at h
      · next header h3 =>
        split at h
        · simp at h
        · next certs h4 =>
          split at h
          · simp at h
          · next jwk h5 =>
            split at h
            · simp at h
            · next payload h6 =>
              split at h
              · next e trc h7 =>
                rcases stageChecks_trace cfg (floorSec env) (ceilSec env) payload with ht | ht <;>
                  rw [h7] at ht <;> simp only [] at ht <;> subst ht <;> simp at h
              · next val trc h7 =>
                cases val
                exact ⟨payload, trc, payloadOfRun_eq h1 h2 h6, h7⟩

theorem validate_eta (cfg : Config) (env : Env) (req : Req) :
    validateAccessJWT cfg env req =
      ((validateAccessJWT cfg env req).1, (validateAccessJWT cfg env req).2) := rfl

theorem stageChecks_service_ok_iff (cfg : Config) (fl ce : Int) (s : ServicePayloadT) :
    (stageChecks cfg fl ce (.service s)).1 = .ok () ↔
      (s.iss = certsURLOrigin cfg.teamDomain ∧
        includesAud (.service s) cfg.aud = true ∧ fl < s.exp) := by
  rw [stageChecks_service_eq]
  split
  · next h => simp only [not_not] at h ⊢; tauto
  · next h =>
    rw [not_not] at h
    split
    · next ha =>
      simp only [Bool.not_eq_true'] at ha
      constructor
      · intro hc; simp at hc
      · rintro ⟨-, h2, -⟩; rw [ha] at h2; exact absurd h2 (by simp)
    · next ha =>
      simp only [Bool.not_eq_true', Bool.not_eq_false] at ha
      split
      · next he =>
        constructor
        · intro hc; simp at hc
        · rintro ⟨-, -, h3⟩; omega
      · next he =>
        simp only [not_le] at he
        simp [h, ha, he]

/-! ### Auxiliary lemmas for the construction-time team validation -/

theorem self_isPrefixOf_append (l r : List Char) : l.isPrefixOf (l ++ r) = true := by
  induction l with
  | nil => simp [List.isPrefixOf]
  | cons a as ih => simp [List.isPrefixOf, ih]

theorem span_team (l r : List Char) (hl : ∀ c ∈ l, isTeamChar c = true)
    (hr : ∀ c, r.head? = some c → isTeamChar c = false) :
    (l ++ r).takeWhile isTeamChar = l ∧ (l ++ r).dropWhile isTeamChar = r := by
  induction l with
  | nil =>
    cases r with
    | nil => exact ⟨rfl, rfl⟩
    | cons c cs =>
      have := hr c rfl
      simp [List.takeWhile, List.dropWhile, this]
  | cons a as ih =>
    have ha := hl a (by simp)
    have := ih (fun c hc => hl c (by simp [hc]))
    simp [List.takeWhile, List.dropWhile, ha, this.1, this.2]

theorem teamMatch_domainMatch {team : String} (h : accessTeamMatch team = true) :
    accessTeamDomainMatch ("https://" ++ team ++ ".cloudflareaccess.com") = true := by
  unfold accessTeamMatch at h
  rw [Bool.and_eq_true] at h
  obtain ⟨hne, hall⟩ := h
  have hall' : ∀ c ∈ team.data, isTeamChar c = true := by
    intro c hc; exact List.all_eq_true.mp hall c hc
  have hdata : ("https://" ++ team ++ ".cloudflareaccess.com").data =
      "https://".data ++ (team.data ++ ".cloudflareaccess.com".data) := by
    simp [String.data_append]
  have hpre := self_isPrefixOf_append "https://".data
    (team.data ++ ".cloudflareaccess.com".data)
  have hspan := span_team team.data ".cloudflareaccess.com".data hall'
    (by intro c hc; simp at hc; rw [← hc]; rfl)
  simp only [accessTeamDomainMatch, hdata, hpre, if_true, List.drop_left,
    hspan.1, hspan.2, Bool.and_eq_true, Bool.not_eq_true', beq_self_eq_true, and_true]
  simpa using hne

theorem teamMatch_iff (team : String) : accessTeamMatch team = true ↔
    (team.data ≠ [] ∧ ∀ c ∈ team.data,
      (('a' ≤ c ∧ c ≤ 'z') ∨ ('0' ≤ c ∧ c ≤ '9') ∨ c = '-')) := by
  unfold accessTeamMatch isTeamChar
  simp only [List.all_eq_true, List.isEmpty_iff, Bool.and_eq_true, Bool.or_eq_true,
    Bool.not_eq_true', List.isEmpty_eq_false, decide_eq_true_eq, beq_iff_eq]
  constructor
  · rintro ⟨h1, h2⟩
    exact ⟨h1, fun c hc => by have := h2 c hc; tauto⟩
  · rintro ⟨h1, h2⟩
    exact ⟨h1, fun c hc => by have := h2 c hc; tauto⟩

/-! ### Auxiliary lemmas about the certs-response schema -/

theorem parseCerts_nonempty {j : JVal} {certs : AccessCertsT}
    (h : parseAccessCertsResponse j = some certs) :
    certs.keys ≠ [] ∧ certs.public_certs ≠ [] := by
  unfold parseAccessCertsResponse at h
  split at h <;> try exact Option.noConfusion h
  split at h <;> try exact Option.noConfusion h
  split at h <;> try exact Option.noConfusion h
  split at h <;> try exact Option.noConfusion h
  split at h <;> try exact Option.noConfusion h
  split at h <;> try exact Option.noConfusion h
  split at h <;> try exact Option.noConfusion h
  split at h <;> try exact Option.noConfusion h
  next hcond =>
    rw [Bool.and_eq_true] at hcond
    obtain ⟨hk, hp⟩ := hcond
    cases h
    constructor
    · simpa using hk
    · simpa using hp

theorem parseCerts_empty_keys {fs : List (String × JVal)}
    (h : lookupField fs "keys" = some (.arr [])) :
    parseAccessCertsResponse (.obj fs) = none := by
  have harr : getArrField fs "keys" = some ([] : List JVal) := by
    unfold getArrField; rw [h]
  have hmapM : mapMOpt parseAccessKey ([] : List JVal) = some [] := rfl
  simp only [parseAccessCertsResponse, harr, hmapM]
  cases h2 : lookupField fs "public_cert" with
  | none => simp [h2]
  | some pcJ =>
    cases h3 : parsePublicCert pcJ with
    | none => simp [h2, h3]
    | some pc =>
      cases h4 : getArrField fs "public_certs" with
      | none => simp [h2, h3, h4]
      | some pcsJ =>
        cases h5 : mapMOpt parsePublicCert pcsJ with
        | none => simp [h2, h3, h4, h5]
        | some pcs => simp [h2, h3, h4, h5]

theorem parseCerts_empty_certs {fs : List (String × JVal)}
    (h : lookupField fs "public_certs" = some (.arr [])) :
    parseAccessCertsResponse (.obj fs) = none := by
  have harr : getArrField fs "public_certs" = some ([] : List JVal) := by
    unfold getArrField; rw [h]
  have hmapM : mapMOpt parsePublicCert ([] : List JVal) = some [] := rfl
  simp only [parseAccessCertsResponse, harr, hmapM]
  cases h2 : getArrField fs "keys" with
  | none => simp [h2]
  | some keysJ =>
    cases h3 : mapMOpt parseAccessKey keysJ with
    | none => simp [h2, h3]
    | some keys =>
      cases h4 : lookupField fs "public_cert" with
      | none => simp [h2, h3, h4]
      | some pcJ =>
        cases h5 : parsePublicCert pcJ with
        | none => simp [h2, h3, h4, h5]
        | some pc => simp [h2, h3, h4, h5]

/-! ### Claim theorems -/

/-- C10: every string accepted by the `AccessJWT` pattern splits on `.`
into exactly three nonempty parts, so the explicit three-parts check
inside `validateAccessJWT` never fails: the branch throwing 'JWT does not
have three parts.' is unreachable. -/
theorem jwt_regex_three_parts :
    ∀ s : String, accessJWTMatch s = true →
      (splitOnDot s.data).length = 3 ∧
      (∀ p ∈ splitOnDot s.data, p ≠ []) ∧
      stageSplit s ≠ .error "JWT does not have three parts." := by
  intro s h
  have h3 := accessJWTMatch_split h
  have hne := (jwtAux_parts s.data 0 false h).2 rfl
  refine ⟨h3, hne, ?_⟩
  unfold stageSplit
  obtain ⟨a, b, c, habc⟩ := List.length_eq_three.mp h3
  rw [habc]
  simp

/-- Witness for C10 at the concrete token `h.p.s`. -/
theorem jwt_regex_three_parts_witness :
    (splitOnDot "h.p.s".data).length = 3 ∧
    stageSplit "h.p.s" ≠ .error "JWT does not have three parts." :=
  ⟨(jwt_regex_three_parts "h.p.s" (by decide)).1,
   (jwt_regex_three_parts "h.p.s" (by decide)).2.2⟩

/-- C4: a request whose token does not consist of exactly three
dot-separated segments (including a missing header) fails before any
network call: the middleware rejects with the generic 401 and its event
trace is empty, so the certs fetch is never issued. -/
theorem malformed_token_no_fetch :
    ∀ (cfg : Config) (env : Env) (req : Req),
      (∀ s, req.cfAccessJwtAssertion = some s → (splitOnDot s.data).length ≠ 3) →
      middlewareRun cfg env req = .error (401, "unauthorized") ∧
      middlewareTrace cfg env req = [] := by
  intro cfg env req h
  have hv : hasValidJWT req = false := by
    unfold hasValidJWT extractJWTFromRequest
    cases hr : req.cfAccessJwtAssertion with
    | none => rfl
    | some s =>
      cases hm : accessJWTMatch s with
      | false => simp [hm]
      | true => exact absurd (accessJWTMatch_split hm) (h s hr)
  exact ⟨mw_fail (Or.inl hv), by unfold middlewareTrace; simp [hv]⟩

/-- Witness for C4 at the one-segment token `abc`. -/
theorem malformed_token_no_fetch_witness :
    middlewareRun cfgW envBad ⟨some "abc"⟩ = .error (401, "unauthorized") ∧
    middlewareTrace cfgW envBad ⟨some "abc"⟩ = [] :=
  malformed_token_no_fetch cfgW envBad ⟨some "abc"⟩
    (by intro s hs; cases hs; decide)

/-- C3: when the token's header `kid` matches no key of the fetched and
parsed KeySet, `validateAccessJWT` fails with exactly 'Could not find
matching signing key.' and `crypto.subtle.verify` is never invoked. -/
theorem missing_kid_no_verify :
    ∀ (cfg : Config) (env : Env) (req : Req) (jwt hdr pay sig : String)
      (header : AccessHeaderT) (certs : AccessCertsT),
      extractJWTFromRequest req = .ok jwt →
      stageSplit jwt = .ok (hdr, pay, sig) →
      stageHeader env hdr = .ok header →
      stageCerts env = .ok certs →
      (∀ k ∈ certs.keys, k.kid ≠ header.kid) →
      (validateAccessJWT cfg env req).1 = .error "Could not find matching signing key." ∧
      Ev.subtleVerify ∉ (validateAccessJWT cfg env req).2 := by
  intro cfg env req jwt hdr pay sig header certs h1 h2 h3 h4 h5
  have hfind : certs.keys.find? (fun k => k.kid == header.kid) = none := by
    rw [List.find?_eq_none]
    intro k hk
    simpa using h5 k hk
  have hv : validateAccessJWT cfg env req =
      (.error "Could not find matching signing key.", [.fetchCerts]) := by
    unfold validateAccessJWT
    simp only [h1, h2, h3, h4, stageKey, hfind]
  rw [hv]
  exact ⟨rfl, by decide⟩

/-- Witness for C3: the example run whose header names the absent key. -/
theorem missing_kid_no_verify_witness :
    (validateAccessJWT cfgW envKid reqW).1 = .error "Could not find matching signing key." ∧
    Ev.subtleVerify ∉ (validateAccessJWT cfgW envKid reqW).2 :=
  missing_kid_no_verify cfgW envKid reqW "h.p.s" "h" "p" "s" ⟨kidB⟩ certsW
    (by decide) (by decide) (by decide) (by decide) (by decide)

/-- C1: any two requests on which token validation fails — whatever the
internal reason — produce the same caller-visible outcome, namely the 401
'unauthorized' exception, so the response reveals nothing about which
check failed. -/
theorem unauthorized_uniform_on_failure :
    ∀ (cfg₁ : Config) (env₁ : Env) (req₁ : Req)
      (cfg₂ : Config) (env₂ : Env) (req₂ : Req),
      tokenValidationFails cfg₁ env₁ req₁ →
      tokenValidationFails cfg₂ env₂ req₂ →
      middlewareRun cfg₁ env₁ req₁ = .error (newHTTPException 401 "unauthorized") ∧
      middlewareRun cfg₁ env₁ req₁ = middlewareRun cfg₂ env₂ req₂ := by
  intro _ _ _ _ _ _ h1 h2
  refine ⟨mw_fail h1, ?_⟩
  rw [mw_fail h1, mw_fail h2]

/-- Witness for C1: a missing header and a missing signing key fail with
identical externally visible outcomes. -/
theorem unauthorized_uniform_on_failure_witness :
    middlewareRun cfgW envBad reqNone = .error (newHTTPException 401 "unauthorized") ∧
    middlewareRun cfgW envBad reqNone = middlewareRun cfgW envKid reqW :=
  unauthorized_uniform_on_failure cfgW envBad reqNone cfgW envKid reqW
    (Or.inl (by decide))
    (Or.inr ⟨"Could not find matching signing key.", by decide⟩)

/-- C2: a token accepted by `validateAccessJWT` has `iss` equal to the
origin of the certs URL actually fetched, which is derived solely from the
configured team; and a run whose decoded payload carries a different `iss`
is rejected without ever reaching signature verification. -/
theorem issuer_bound_to_team_config :
    ∀ (team audience : String) (cfg : Config) (env : Env) (req : Req),
      useCloudflareAccess team audience = .ok cfg →
      (∀ p tr, validateAccessJWT cfg env req = (.ok p, tr) →
        p.iss = certsURLOrigin cfg.teamDomain ∧
        cfg.teamDomain = "https://" ++ team ++ ".cloudflareaccess.com") ∧
      (∀ p, payloadOfRun env req = some p →
        p.iss ≠ certsURLOrigin cfg.teamDomain →
        isErr (validateAccessJWT cfg env req).1 = true ∧
        Ev.subtleVerify ∉ (validateAccessJWT cfg env req).2) := by
  intro team audience cfg env req hcfg
  have hdom : cfg.teamDomain = "https://" ++ team ++ ".cloudflareaccess.com" := by
    unfold useCloudflareAccess at hcfg
    split at hcfg
    · split at hcfg
      · split at hcfg
        · cases hcfg; rfl
        · exact Except.noConfusion hcfg
      · exact Except.noConfusion hcfg
    · exact Except.noConfusion hcfg
  constructor
  · intro p tr h
    obtain ⟨jwt, hdr, pay, sig, header, certs, jwk, trc,
      h1, h2, h3, h4, h5, h6, h7, h8, h9⟩ := validate_ok_elim h
    exact ⟨stageChecks_ok_iss (by rw [h7]), hdom⟩
  · intro p hp hne
    have hnotok : ∀ (p' : AccessPayloadT) (tr : List Ev),
        validateAccessJWT cfg env req ≠ (.ok p', tr) := by
      intro p' tr hcontra
      obtain ⟨jwt, hdr, pay, sig, header, certs, jwk, trc,
        h1, h2, h3, h4, h5, h6, h7, h8, h9⟩ := validate_ok_elim hcontra
      have hpr := payloadOfRun_eq h1 h2 h6
      rw [hp] at hpr
      have hpp : p = p' := by injection hpr
      have hiss := @stageChecks_ok_iss cfg (floorSec env) (ceilSec env) p' (by rw [h7])
      rw [← hpp] at hiss
      exact hne hiss
    constructor
    · cases hv : (validateAccessJWT cfg env req).1 with
      | error e => rfl
      | ok p' =>
        have he := validate_eta cfg env req
        rw [hv] at he
        exact absurd he (hnotok p' _)
    · intro hmem
      obtain ⟨p', trc, hpr', hchk⟩ := verify_mem_elim hmem
      rw [hp] at hpr'
      have hpp : p = p' := by injection hpr'
      have hiss := @stageChecks_ok_iss cfg (floorSec env) (ceilSec env) p' (by rw [hchk])
      rw [← hpp] at hiss
      exact hne hiss

/-- Witness for C2 at the accepted example service-auth run. -/
theorem issuer_bound_to_team_config_witness :
    (AccessPayloadT.service spW).iss = certsURLOrigin cfgW.teamDomain ∧
    cfgW.teamDomain = "https://" ++ "myteam" ++ ".cloudflareaccess.com" :=
  (issuer_bound_to_team_config "myteam" audW cfgW envW reqW (by decide)).1
    (.service spW) [.fetchCerts, .subtleVerify] (by decide)

/-- C5: the expiry check compares the floored clock strictly: a payload
passes it iff `floor(now) < exp`, a payload with `exp ≤ floor(now)` (in
particular `exp = floor(now)`) never validates, and every accepted token
satisfies `floor(now) < exp`. -/
theorem expiry_check_strict :
    ∀ (cfg : Config) (env : Env) (req : Req) (fl ce : Int) (p : AccessPayloadT),
      ((stageChecks cfg fl ce p).1 = .ok () → fl < p.exp) ∧
      (p.exp ≤ fl → (stageChecks cfg fl ce p).1 ≠ .ok ()) ∧
      (∀ p' tr, validateAccessJWT cfg env req = (.ok p', tr) →
        floorSec env < p'.exp) := by
  intro cfg env req fl ce p
  refine ⟨fun h => stageChecks_ok_exp h,
    fun hle hok => absurd (stageChecks_ok_exp hok) (by omega), ?_⟩
  intro p' tr h
  obtain ⟨jwt, hdr, pay, sig, header, certs, jwk, trc,
    h1, h2, h3, h4, h5, h6, h7, h8, h9⟩ := validate_ok_elim h
  exact stageChecks_ok_exp (by rw [h7])

/-- Witness for C5 at the boundary `exp = floor(now)`. -/
theorem expiry_check_strict_witness :
    (stageChecks cfgW 1000000000 1000000000 (.service spE)).1 ≠ .ok () :=
  (expiry_check_strict cfgW envBad reqNone 1000000000 1000000000 (.service spE)).2.1
    (by decide)

/-- C6: the audience check passes for a user payload iff the configured
audience is a member of the `aud` array (unrelated entries allowed), for a
service-auth payload iff `aud` equals it exactly, and every accepted token
passed it. -/
theorem audience_check_semantics :
    ∀ (aud : String),
      (∀ u : UserPayloadT, includesAud (.user u) aud = true ↔ aud ∈ u.aud) ∧
      (∀ s : ServicePayloadT, includesAud (.service s) aud = true ↔ s.aud = aud) ∧
      (∀ (cfg : Config) (env : Env) (req : Req) (p : AccessPayloadT) (tr : List Ev),
        validateAccessJWT cfg env req = (.ok p, tr) →
        includesAud p cfg.aud = true) := by
  intro aud
  refine ⟨?_, ?_, ?_⟩
  · intro u
    unfold includesAud
    rw [List.contains_iff_exists_mem_beq]
    constructor
    · rintro ⟨x, hx, hbeq⟩
      rw [beq_iff_eq] at hbeq
      rw [← hbeq] at hx
      exact hx
    · intro hx
      exact ⟨aud, hx, by simp⟩
  · intro sp
    unfold includesAud
    exact beq_iff_eq ..
  · intro cfg env req p tr h
    obtain ⟨jwt, hdr, pay, sig, header, certs, jwk, trc,
      h1, h2, h3, h4, h5, h6, h7, h8, h9⟩ := validate_ok_elim h
    exact stageChecks_ok_aud (by rw [h7])

/-- Witness for C6: the user `aud` array containing an unrelated second
entry passes, the service-auth string must match exactly, and the accepted
example user run passed the audience check. -/
theorem audience_check_semantics_witness :
    includesAud (.user upW) audW = true ∧
    includesAud (.service spW) audW = true ∧
    includesAud (.user upW) cfgW.aud = true :=
  ⟨((audience_check_semantics audW).1 upW).mpr (by decide),
   ((audience_check_semantics audW).2.1 spW).mpr (by decide),
   (audience_check_semantics audW).2.2 cfgW envU reqW (.user upW)
     [.fetchCerts, .nbfCompare, .subtleVerify] (by decide)⟩

/-- C7: the not-before comparison is evaluated exactly when the validated
payload carries a truthy `identity_nonce` — i.e. for the user-payload
variant, never for a service-auth payload — and a service-auth token for
which issuer, audience, expiry and signature hold is accepted with no nbf
check ever running. -/
theorem nbf_check_only_user :
    ∀ (cfg : Config) (fl ce : Int) (env : Env) (req : Req),
      (∀ p : AccessPayloadT, Ev.nbfCompare ∈ (stageChecks cfg fl ce p).2 →
        ∃ u, p = .user u ∧ u.identity_nonce ≠ "") ∧
      (∀ s : ServicePayloadT,
        (stageChecks cfg fl ce (.service s)).2 = [] ∧
        ((stageChecks cfg fl ce (.service s)).1 = .ok () ↔
          (s.iss = certsURLOrigin cfg.teamDomain ∧
            includesAud (.service s) cfg.aud = true ∧ fl < s.exp))) ∧
      (∀ u : UserPayloadT, u.iss = certsURLOrigin cfg.teamDomain →
        includesAud (.user u) cfg.aud = true → fl < u.exp →
        u.identity_nonce ≠ "" →
        Ev.nbfCompare ∈ (stageChecks cfg fl ce (.user u)).2) ∧
      (∀ (sp : ServicePayloadT) (tr : List Ev),
        validateAccessJWT cfg env req = (.ok (.service sp), tr) →
        Ev.nbfCompare ∉ tr) ∧
      (∀ (jwt hdr pay sig : String) (header : AccessHeaderT)
        (certs : AccessCertsT) (jwk : AccessKeyT) (sp : ServicePayloadT),
        extractJWTFromRequest req = .ok jwt →
        stageSplit jwt = .ok (hdr, pay, sig) →
        stageHeader env hdr = .ok header →
        stageCerts env = .ok certs →
        stageKey certs header.kid = .ok jwk →
        stagePayload env pay = .ok (.service sp) →
        sp.iss = certsURLOrigin cfg.teamDomain →
        includesAud (.service sp) cfg.aud = true →
        floorSec env < sp.exp →
        env.verify jwk sig (hdr ++ "." ++ pay) = true →
        (validateAccessJWT cfg env req).1 = .ok (.service sp) ∧
        Ev.nbfCompare ∉ (validateAccessJWT cfg env req).2) := by
  intro cfg fl ce env req
  refine ⟨?_, ?_, ?_, ?_, ?_⟩
  · intro p hmem
    cases p with
    | service sp =>
      rw [stageChecks_service_eq] at hmem
      split_ifs at hmem <;> simp at hmem
    | user u =>
      refine ⟨u, rfl, ?_⟩
      rw [stageChecks_user_eq] at hmem
      split_ifs at hmem with h1 h2 h3 h4 h5 <;> first | exact h4 | simp at hmem
  · intro sp
    constructor
    · rw [stageChecks_service_eq]
      split_ifs <;> rfl
    · exact stageChecks_service_ok_iff cfg fl ce sp
  · intro u hiss haud hexp hnonce
    rw [stageChecks_user_eq]
    rw [if_neg (by simp [hiss]), if_neg (by simp [haud]), if_neg (by omega),
      if_pos hnonce]
    split
    · simp
    · simp
  · intro sp tr h
    obtain ⟨jwt, hdr, pay, sig, header, certs, jwk, trc,
      h1, h2, h3, h4, h5, h6, h7, h8, h9⟩ := validate_ok_elim h
    rw [stageChecks_service_eq] at h7
    split_ifs at h7 <;> simp at h7
    rw [h9, h7]
    simp
  · intro jwt hdr pay sig header certs jwk sp h1 h2 h3 h4 h5 h6 hiss haud hexp h8
    have hchk : stageChecks cfg (floorSec env) (ceilSec env) (.service sp) =
        (.ok (), []) := by
      rw [stageChecks_service_eq]
      rw [if_neg (by simp [hiss]), if_neg (by simp [haud]), if_neg (by omega)]
    have hv := validate_ok_intro h1 h2 h3 h4 h5 h6 hchk h8
    rw [hv]
    exact ⟨rfl, by simp⟩

/-- Witness for C7: the example service-auth token is accepted and its run
never evaluates the not-before comparison. -/
theorem nbf_check_only_user_witness :
    (validateAccessJWT cfgW envW reqW).1 = .ok (.service spW) ∧
    Ev.nbfCompare ∉ (validateAccessJWT cfgW envW reqW).2 :=
  (nbf_check_only_user cfgW 0 0 envW reqW).2.2.2.2
    "h.p.s" "h" "p" "s" ⟨kidW⟩ certsW keyW spW (by decide) (by decide) (by decide)
    (by decide) (by decide) (by decide) (by decide) (by decide) (by decide)
    (by decide)

/-- C8 counterexample: the team string `A` consists only of alphanumeric
characters (and hyphens), yet `useCloudflareAccess` rejects it at
construction — the pattern `[a-z0-9-]+` admits lowercase letters only, so
acceptance is not equivalent to the claimed alphanumeric-plus-hyphen
character set. -/
theorem team_charset_cex :
    useCloudflareAccess "A" audW = .error "invalid team" ∧
    "A".data.all (fun c => c.isAlphanum || c == '-') = true :=
  ⟨by decide, by decide⟩

/-- C8 (amended): with a well-formed audience, construction accepts a team
identifier iff it is a nonempty string over lowercase `[a-z0-9-]`; any
other team string (e.g. containing `_` or an uppercase letter) makes
`useCloudflareAccess` throw at construction time, before any request is
handled. -/
theorem team_charset_construction_iff :
    ∀ (team audience : String), hex64Match audience = true →
      (constructionOk team audience = true ↔
        (team.data ≠ [] ∧ ∀ c ∈ team.data,
          (('a' ≤ c ∧ c ≤ 'z') ∨ ('0' ≤ c ∧ c ≤ '9') ∨ c = '-'))) := by
  intro team audience haud
  rw [← teamMatch_iff]
  constructor
  · intro h
    by_cases ht : accessTeamMatch team = true
    · exact ht
    · unfold constructionOk useCloudflareAccess at h
      rw [if_neg ht] at h
      simp at h
  · intro ht
    unfold constructionOk useCloudflareAccess
    rw [if_pos ht, if_pos (teamMatch_domainMatch ht), if_pos haud]

/-- Witness for C8 (amended) at the accepted team `my-team`. -/
theorem team_charset_construction_iff_witness :
    constructionOk "my-team" audW = true ∧ hex64Match audW = true :=
  ⟨(team_charset_construction_iff "my-team" audW (by decide)).mpr (by decide),
   by decide⟩

/-- C9: a certs response parses only with at least one key and one public
certificate: empty `keys` or `public_certs` arrays and any other schema
violation yield a parse failure, a failed parse forces the request's
validation to fail, and every accepted request consumed a well-formed
nonempty certs response. -/
theorem certs_schema_rejects_empty :
    ∀ (cfg : Config) (env : Env) (req : Req) (j : JVal) (certs : AccessCertsT),
      (parseAccessCertsResponse j = some certs →
        certs.keys ≠ [] ∧ certs.public_certs ≠ []) ∧
      (∀ fs, lookupField fs "keys" = some (.arr []) →
        parseAccessCertsResponse (.obj fs) = none) ∧
      (∀ fs, lookupField fs "public_certs" = some (.arr []) →
        parseAccessCertsResponse (.obj fs) = none) ∧
      (∀ jv, env.certsBody = some jv → parseAccessCertsResponse jv = none →
        isErr (validateAccessJWT cfg env req).1 = true) ∧
      (∀ p tr, validateAccessJWT cfg env req = (.ok p, tr) →
        ∃ jv c, env.certsBody = some jv ∧ parseAccessCertsResponse jv = some c ∧
          c.keys ≠ [] ∧ c.public_certs ≠ []) := by
  intro cfg env req j certs
  refine ⟨parseCerts_nonempty, fun fs h => parseCerts_empty_keys h,
    fun fs h => parseCerts_empty_certs h, ?_, ?_⟩
  · intro jv hb hp
    cases hv : (validateAccessJWT cfg env req).1 with
    | error e => rfl
    | ok p' =>
      exfalso
      have he := validate_eta cfg env req
      rw [hv] at he
      obtain ⟨jwt, hdr, pay, sig, header, certs2, jwk, trc,
        h1, h2, h3, h4, h5, h6, h7, h8, h9⟩ := validate_ok_elim he
      unfold stageCerts at h4
      simp [hb, hp] at h4
  · intro p tr h
    obtain ⟨jwt, hdr, pay, sig, header, certs2, jwk, trc,
      h1, h2, h3, h4, h5, h6, h7, h8, h9⟩ := validate_ok_elim h
    unfold stageCerts at h4
    cases hb : env.certsBody with
    | none => simp [hb] at h4
    | some jv =>
      cases hp : parseAccessCertsResponse jv with
      | none => simp [hb, hp] at h4
      | some c =>
        exact ⟨jv, c, rfl, hp, (parseCerts_nonempty hp).1, (parseCerts_nonempty hp).2⟩

/-- Witness for C9 at the example certs response and at a response with an
empty `keys` array. -/
theorem certs_schema_rejects_empty_witness :
    certsW.keys ≠ [] ∧ parseAccessCertsResponse (.obj [("keys", .arr [])]) = none :=
  ⟨((certs_schema_rejects_empty cfgW envW reqW certsJ certsW).1 (by rfl)).1,
   (certs_schema_rejects_empty cfgW envW reqW certsJ certsW).2.1
     [("keys", .arr [])] rfl⟩

end Access